import Mathlib

/-!
Shallow embedding of the instrumented-operation envelope of the
NHYCRaymond/calorie repository: the `errors`, `metrics`, `redis`,
`mongodb` and `logger` packages, restricted to the data and operations
the verified properties are about.  Go interface errors are modelled by
`Option GoErr` (`none` = the nil error), pointers to mutable state by
explicit state passing, and the Prometheus sink by a registry value plus
an event trace of the calls made against it.  The wall clock is an
explicit `Nat` parameter (nanoseconds, like Go's `time.Duration`);
float64 durations are modelled by `Rat`.
-/

namespace Calorie

/-- Character-list version of Go's `strings.HasPrefix` used by `strContains`. -/
def leadMatch : List Char → List Char → Bool
  | _, [] => true
  | [], _ :: _ => false
  | a :: as, b :: bs => a == b && leadMatch as bs

/-- Substring test on character lists: does `sub` occur inside `s`? -/
def subMatch : List Char → List Char → Bool
  | [], sub => sub.isEmpty
  | a :: rest, sub => leadMatch (a :: rest) sub || subMatch rest sub

/-- Embeds Go's `strings.Contains s sub`. -/
def strContains (s sub : String) : Bool :=
  subMatch s.toList sub.toList

namespace Errors

/-- `pkg/errors.ErrorCode`, an integer error code. -/
abbrev ErrorCode := Int

def CodeSuccess : ErrorCode := 0

def CodeError : ErrorCode := 1

def CodeUnauthorized : ErrorCode := 401

def CodeForbidden : ErrorCode := 403

def CodeNotFound : ErrorCode := 404

def CodeServerError : ErrorCode := 500

/-- `pkg/errors.Error`: code, message and detail list. -/
structure Error where
  Code : ErrorCode
  Message : String
  Details : List String
deriving DecidableEq

/-- `pkg/errors.New`: build an error value (the variadic detail list is
passed explicitly). -/
def New (code : ErrorCode) (message : String) (details : List String) : Error :=
  ⟨code, message, details⟩

/-- The `Error() string` method of `pkg/errors.Error`. -/
def Error.msg (e : Error) : String :=
  if e.Details.length > 0 then
    e.Message ++ ": " ++ String.intercalate "; " e.Details
  else
    e.Message

/-- `(*Error).WithDetails`: append details in place and return the value. -/
def Error.WithDetails (e : Error) (details : List String) : Error :=
  { e with Details := e.Details ++ details }

end Errors

/-- A non-nil Go `error` value as seen by this repository: the go-redis
`redis.Nil` sentinel, a `*errors.Error` from `pkg/errors`, or any other
driver error identified by its message.  A Go `error` variable is
`Option GoErr`, with `none` for nil. -/
inductive GoErr
  | redisNil
  | pkgErr (e : Errors.Error)
  | generic (msg : String)
deriving DecidableEq

/-- The `Error()` message of a non-nil Go error. -/
def GoErr.msg : GoErr → String
  | .redisNil => "redis: nil"
  | .pkgErr e => e.msg
  | .generic m => m

namespace Metrics

/-- `pkg/metrics.Config`. -/
structure Config where
  Enabled : Bool
  Addr : String
  Path : String
deriving DecidableEq

/-- `pkg/metrics.DefaultConfig`. -/
def DefaultConfig : Config := ⟨true, ":9090", "/metrics"⟩

/-- A `*prometheus.CounterVec` handle: identified by its allocation id,
carrying the options it was created with. -/
structure CounterVec where
  id : Nat
  name : String
  help : String
  labelNames : List String
deriving DecidableEq

/-- A `*prometheus.GaugeVec` handle. -/
structure GaugeVec where
  id : Nat
  name : String
  help : String
  labelNames : List String
deriving DecidableEq

/-- A `*prometheus.HistogramVec` handle. -/
structure HistogramVec where
  id : Nat
  name : String
  help : String
  labelNames : List String
  buckets : List Rat
deriving DecidableEq

/-- A `*prometheus.SummaryVec` handle. -/
structure SummaryVec where
  id : Nat
  name : String
  help : String
  labelNames : List String
  objectives : List (Rat × Rat)
deriving DecidableEq

/-- `pkg/metrics.Client`: the sink's registry state.  The four Go maps
become association lists keyed by metric name; `nextId` allocates fresh
handle identities (standing for Go pointer identity). -/
structure Client where
  config : Config
  counters : List (String × CounterVec)
  gauges : List (String × GaugeVec)
  histograms : List (String × HistogramVec)
  summaries : List (String × SummaryVec)
  nextId : Nat
deriving DecidableEq

/-- `pkg/metrics.NewClient` (the HTTP exposition side effect is outside
the model). -/
def NewClient (config : Option Config) : Client :=
  let cfg := match config with
    | none => DefaultConfig
    | some c => c
  ⟨cfg, [], [], [], [], 0⟩

/-- `(*metrics.Client).Counter`: return the memoized counter for `name`
if present, otherwise create, register and cache a fresh one. -/
def Client.Counter (c : Client) (name help : String) (labels : List String) :
    CounterVec × Client :=
  match c.counters.lookup name with
  | some counter => (counter, c)
  | none =>
    let counter : CounterVec := ⟨c.nextId, name, help, labels⟩
    (counter, { c with counters := (name, counter) :: c.counters, nextId := c.nextId + 1 })

/-- `(*metrics.Client).Gauge`. -/
def Client.Gauge (c : Client) (name help : String) (labels : List String) :
    GaugeVec × Client :=
  match c.gauges.lookup name with
  | some gauge => (gauge, c)
  | none =>
    let gauge : GaugeVec := ⟨c.nextId, name, help, labels⟩
    (gauge, { c with gauges := (name, gauge) :: c.gauges, nextId := c.nextId + 1 })

/-- `(*metrics.Client).Histogram`. -/
def Client.Histogram (c : Client) (name help : String) (labels : List String)
    (buckets : List Rat) : HistogramVec × Client :=
  match c.histograms.lookup name with
  | some histogram => (histogram, c)
  | none =>
    let histogram : HistogramVec := ⟨c.nextId, name, help, labels, buckets⟩
    (histogram, { c with histograms := (name, histogram) :: c.histograms, nextId := c.nextId + 1 })

/-- `(*metrics.Client).Summary`. -/
def Client.Summary (c : Client) (name help : String) (labels : List String)
    (objectives : List (Rat × Rat)) : SummaryVec × Client :=
  match c.summaries.lookup name with
  | some summary => (summary, c)
  | none =>
    let summary : SummaryVec := ⟨c.nextId, name, help, labels, objectives⟩
    (summary, { c with summaries := (name, summary) :: c.summaries, nextId := c.nextId + 1 })

/-- One call made against the metrics sink: obtaining a handle, observing
a histogram value, or incrementing a counter. -/
inductive Event
  | getCounter (name help : String) (labelNames : List String)
  | getHistogram (name help : String) (labelNames : List String) (buckets : List Rat)
  | observe (h : HistogramVec) (labelValues : List String) (value : Rat)
  | inc (c : CounterVec) (labelValues : List String)
deriving DecidableEq

/-- Is this event a histogram duration observation? -/
def Event.isObserve : Event → Bool
  | .observe _ _ _ => true
  | _ => false

/-- Is this event a counter increment? -/
def Event.isInc : Event → Bool
  | .inc _ _ => true
  | _ => false

end Metrics

/-- Elapsed seconds between two nanosecond clock readings, embedding
`time.Since(start).Seconds()`. -/
def durationSeconds (startTime now : Nat) : Rat :=
  ((now : Rat) - (startTime : Rat)) / 1000000000

namespace Redis

/-- `redis.Config` (durations in nanoseconds). -/
structure Config where
  Addr : String
  Password : String
  DB : Int
  MaxRetries : Int
  MinRetryBackoff : Int
  MaxRetryBackoff : Int
  DialTimeout : Int
  ReadTimeout : Int
  WriteTimeout : Int
  PoolSize : Int
  MinIdleConns : Int
  MaxConnAge : Int
  EnableMetrics : Bool
  ServiceName : String
deriving DecidableEq

/-- `redis.DefaultConfig`. -/
def DefaultConfig : Config :=
  ⟨"", "", 0, 3, 8000000, 512000000, 5000000000, 3000000000, 3000000000,
    10, 5, 1800000000000, true, "redis"⟩

/-- `redis.Client`: the wrapped driver handle (opaque id), the config
(dereferenced) and the optional metrics sink state. -/
structure Client where
  client : Nat
  config : Config
  metrics : Option Metrics.Client
deriving DecidableEq

/-- `redis.wrapError`: map a raw driver error to the repository's
error taxonomy, tagging the operation name as a detail. -/
def wrapError (err : Option GoErr) (operation : String) : Option Errors.Error :=
  match err with
  | none => none
  | some e =>
    if e = GoErr.redisNil then
      some ((Errors.New Errors.CodeNotFound "key not found" []).WithDetails [operation])
    else if strContains e.msg "connection refused" then
      some ((Errors.New Errors.CodeServerError "connection refused" []).WithDetails [operation])
    else if strContains e.msg "timeout" then
      some ((Errors.New Errors.CodeServerError "operation timeout" []).WithDetails [operation])
    else
      some ((Errors.New Errors.CodeServerError e.msg []).WithDetails [operation])

/-- `redis.operation`: the per-call operation context. -/
structure operation where
  name : String
  client : Nat
  metrics : Option Metrics.Client
  config : Config
  startTime : Nat
deriving DecidableEq

/-- `(*redis.Client).newOperation`: capture the operation name and the
current clock reading together with the client's fields. -/
def Client.newOperation (c : Client) (name : String) (now : Nat) : operation :=
  ⟨name, c.client, c.metrics, c.config, now⟩

/-- `redis.getStatus`: classify an error as a status label. -/
def getStatus (err : Option GoErr) : String :=
  match err with
  | none => "success"
  | some _ => "error"

/-- `(*redis.operation).end` (named `finish` because `end` is a Lean
keyword): when metrics are enabled and a sink is attached, observe the
elapsed duration on the operation-duration histogram and increment the
operations-total counter; otherwise do nothing.  Returns the updated sink
state and the trace of sink calls made. -/
def operation.finish (op : operation) (now : Nat) (err : Option GoErr) :
    Option Metrics.Client × List Metrics.Event :=
  match op.config.EnableMetrics, op.metrics with
  | true, some st =>
    let duration := durationSeconds op.startTime now
    let hr := st.Histogram "redis_operation_duration_seconds"
      "Redis operation duration in seconds" ["operation", "service"]
      [0.001, 0.005, 0.01, 0.05, 0.1, 0.5, 1]
    let cr := hr.2.Counter "redis_operations_total"
      "Total number of Redis operations" ["operation", "status", "service"]
    (some cr.2,
      [Metrics.Event.getHistogram "redis_operation_duration_seconds"
        "Redis operation duration in seconds" ["operation", "service"]
        [0.001, 0.005, 0.01, 0.05, 0.1, 0.5, 1],
       Metrics.Event.observe hr.1 [op.name, op.config.ServiceName] duration,
       Metrics.Event.getCounter "redis_operations_total"
        "Total number of Redis operations" ["operation", "status", "service"],
       Metrics.Event.inc cr.1 [op.name, getStatus err, op.config.ServiceName]])
  | _, _ => (op.metrics, [])

/-- `(*redis.Client).Get`.  The delegated driver call's outcome (result
string and error) is a parameter; `t0` is the clock at entry and `t1`
the clock when the driver call returns. -/
def Client.Get (c : Client) (key : String) (delegated : String × Option GoErr)
    (t0 t1 : Nat) :
    (String × Option Errors.Error) × (Option Metrics.Client × List Metrics.Event) :=
  let op := c.newOperation "get" t0
  let result := delegated.1
  let err := delegated.2
  let fin := op.finish t1 err
  match err with
  | some e => (("", wrapError (some e) "get"), fin)
  | none => ((result, none), fin)

/-- `(*redis.Client).Set`. -/
def Client.Set (c : Client) (key : String) (value : String) (expiration : Int)
    (delegatedErr : Option GoErr) (t0 t1 : Nat) :
    Option Errors.Error × (Option Metrics.Client × List Metrics.Event) :=
  let op := c.newOperation "set" t0
  let fin := op.finish t1 delegatedErr
  match delegatedErr with
  | some e => (wrapError (some e) "set", fin)
  | none => (none, fin)

/-- `(*redis.Client).Del`. -/
def Client.Del (c : Client) (keys : List String) (delegatedErr : Option GoErr)
    (t0 t1 : Nat) :
    Option Errors.Error × (Option Metrics.Client × List Metrics.Event) :=
  let op := c.newOperation "del" t0
  let fin := op.finish t1 delegatedErr
  match delegatedErr with
  | some e => (wrapError (some e) "del", fin)
  | none => (none, fin)

/-- A pointer to a `redis.Config` value: configs live in a reference
store so that `NewClient`'s in-place mutation of the caller's config is
observable. -/
abbrev ConfigRef := Nat

/-- The heap of `redis.Config` values, indexed by reference. -/
abbrev ConfigStore := ConfigRef → Config

/-- The reference of the package-level `redis.DefaultConfig` variable. -/
def defaultConfigRef : ConfigRef := 0

/-- A `*redis.Client` as returned by `NewClient`: driver handle, the
reference to the (possibly shared) config, and the metrics client
pointer (`none` = nil). -/
structure ClientRef where
  client : Nat
  configRef : ConfigRef
  metrics : Option Nat
deriving DecidableEq

/-- `redis.NewClient`: resolve a nil config to `DefaultConfig`, build the
driver client, ping it (`pingErr` is the ping outcome), and if metrics
are enabled but no metrics client was supplied, set `EnableMetrics` to
false on the shared config value. -/
def NewClient (store : ConfigStore) (config : Option ConfigRef)
    (metricsClient : Option Nat) (pingErr : Option GoErr) :
    Except GoErr (ClientRef × ConfigStore) :=
  let r := match config with
    | none => defaultConfigRef
    | some cr => cr
  match pingErr with
  | some e => Except.error e
  | none =>
    if (store r).EnableMetrics = true ∧ metricsClient = none then
      let store2 : ConfigStore := fun x =>
        if x = r then { store r with EnableMetrics := false } else store x
      Except.ok (⟨0, r, metricsClient⟩, store2)
    else
      Except.ok (⟨0, r, metricsClient⟩, store)

end Redis

namespace Mongo

/-- `mongodb.Config` (durations in nanoseconds). -/
structure Config where
  URI : String
  Database : String
  Username : String
  Password : String
  MaxPoolSize : Nat
  MinPoolSize : Nat
  ConnectTimeout : Int
  SocketTimeout : Int
  EnableMetrics : Bool
  ServiceName : String
deriving DecidableEq

/-- `mongodb.DefaultConfig`. -/
def DefaultConfig : Config :=
  ⟨"", "", "", "", 100, 10, 10000000000, 30000000000, true, "mongodb"⟩

/-- `mongodb.Client`: the driver handle (opaque id), the selected
database name, the config and the optional metrics sink state. -/
structure Client where
  client : Nat
  database : String
  config : Config
  metrics : Option Metrics.Client
deriving DecidableEq

/-- `mongodb.getStatus`: classify an error as a status label. -/
def getStatus (err : Option GoErr) : String :=
  match err with
  | none => "success"
  | some _ => "error"

/-- `(*mongodb.Client).recordMetrics`: when metrics are enabled and a
sink is attached, observe the elapsed duration on the operation-duration
histogram and increment the operations-total counter; otherwise do
nothing. -/
def Client.recordMetrics (c : Client) (operation collection : String)
    (err : Option GoErr) (start now : Nat) :
    Option Metrics.Client × List Metrics.Event :=
  match c.config.EnableMetrics, c.metrics with
  | true, some st =>
    let duration := durationSeconds start now
    let hr := st.Histogram "mongodb_operation_duration_seconds"
      "MongoDB operation duration in seconds" ["operation", "collection", "service"]
      [0.1, 0.5, 1, 2, 5, 10]
    let cr := hr.2.Counter "mongodb_operations_total"
      "Total number of MongoDB operations" ["operation", "collection", "status", "service"]
    (some cr.2,
      [Metrics.Event.getHistogram "mongodb_operation_duration_seconds"
        "MongoDB operation duration in seconds" ["operation", "collection", "service"]
        [0.1, 0.5, 1, 2, 5, 10],
       Metrics.Event.observe hr.1 [operation, collection, c.config.ServiceName] duration,
       Metrics.Event.getCounter "mongodb_operations_total"
        "Total number of MongoDB operations" ["operation", "collection", "status", "service"],
       Metrics.Event.inc cr.1 [operation, collection, getStatus err, c.config.ServiceName]])
  | _, _ => (c.metrics, [])

/-- `(*mongodb.Client).InsertOne`: delegate, record metrics once, and
return the delegated result and error unchanged.  The delegated
`*mongo.InsertOneResult` is an opaque optional handle; `t0` is the clock
at entry and `t1` the clock when the driver call returns. -/
def Client.InsertOne (c : Client) (collection : String)
    (delegated : Option Nat × Option GoErr) (t0 t1 : Nat) :
    (Option Nat × Option GoErr) × (Option Metrics.Client × List Metrics.Event) :=
  let rm := c.recordMetrics "insert_one" collection delegated.2 t0 t1
  ((delegated.1, delegated.2), rm)

/-- `(*mongodb.Client).Find`: delegate, record metrics once, and return
the delegated cursor and error unchanged. -/
def Client.Find (c : Client) (collection : String)
    (delegated : Option Nat × Option GoErr) (t0 t1 : Nat) :
    (Option Nat × Option GoErr) × (Option Metrics.Client × List Metrics.Event) :=
  let rm := c.recordMetrics "find" collection delegated.2 t0 t1
  ((delegated.1, delegated.2), rm)

end Mongo

namespace Logger

/-- A logrus log level (ranked: panic < fatal < error < warn < info <
debug < trace). -/
inductive Level
  | panicLv
  | fatalLv
  | errorLv
  | warnLv
  | infoLv
  | debugLv
  | traceLv
deriving DecidableEq

/-- Numeric rank of a level, matching logrus's ordering. -/
def Level.rank : Level → Nat
  | .panicLv => 0
  | .fatalLv => 1
  | .errorLv => 2
  | .warnLv => 3
  | .infoLv => 4
  | .debugLv => 5
  | .traceLv => 6

/-- A `*logrus.Logger` value, restricted to the fields this package
configures: formatter timestamp format (JSON formatter when set), the
level, and the service field added by `InitLogger`. -/
structure LogrusLogger where
  jsonTimestampFormat : Option String
  level : Level
  serviceField : Option String
deriving DecidableEq

/-- `logrus.New()`: fresh logger at the logrus default (info) level. -/
def logrusNew : LogrusLogger := ⟨none, Level.infoLv, none⟩

/-- A `*logrus.Entry`. -/
structure Entry where
  logger : LogrusLogger
  fields : List (String × String)
deriving DecidableEq

/-- `logrus.NewEntry`. -/
def logrusNewEntry (l : LogrusLogger) : Entry := ⟨l, []⟩

/-- One emitted log record. -/
structure LogEvent where
  level : Level
  args : List String
deriving DecidableEq

/-- logrus `IsLevelEnabled`: the logger's level admits `lvl`. -/
def levelEnabled (l : LogrusLogger) (lvl : Level) : Bool :=
  lvl.rank ≤ l.level.rank

/-- A logrus logging call at a given level: emits one record when the
level is enabled. -/
def LogrusLogger.emit (l : LogrusLogger) (lvl : Level) (args : List String) :
    List LogEvent :=
  if levelEnabled l lvl then [⟨lvl, args⟩] else []

/-- The package-level `log` variable of `pkg/logger`: `none` before
`InitLogger` has run. -/
abbrev State := Option LogrusLogger

/-- `logger.Debug`: log only when the package logger is initialized. -/
def Debug (st : State) (args : List String) : List LogEvent :=
  match st with
  | some l => l.emit Level.debugLv args
  | none => []

/-- `logger.Info`. -/
def Info (st : State) (args : List String) : List LogEvent :=
  match st with
  | some l => l.emit Level.infoLv args
  | none => []

/-- `logger.Warn`. -/
def Warn (st : State) (args : List String) : List LogEvent :=
  match st with
  | some l => l.emit Level.warnLv args
  | none => []

/-- `logger.Error`. -/
def Error (st : State) (args : List String) : List LogEvent :=
  match st with
  | some l => l.emit Level.errorLv args
  | none => []

/-- `logger.Fatal`. -/
def Fatal (st : State) (args : List String) : List LogEvent :=
  match st with
  | some l => l.emit Level.fatalLv args
  | none => []

/-- `logger.WithFields`: with an initialized logger, an entry over it
carrying the fields; otherwise a fresh entry over a fresh logger.  The
`Option` result captures the nullability of the returned Go pointer. -/
def WithFields (st : State) (fields : List (String × String)) : Option Entry :=
  match st with
  | some l => some ⟨l, fields⟩
  | none => some (logrusNewEntry logrusNew)

end Logger

/-! Concrete values used to instantiate the verified properties. -/

/-- A fresh metrics sink with the default configuration. -/
def sinkW : Metrics.Client := Metrics.NewClient none

/-- A redis operation context with metrics enabled and a sink attached. -/
def opEnabledW : Redis.operation :=
  ⟨"get", 0, some sinkW, Redis.DefaultConfig, 3⟩

/-- A redis operation context whose client has no metrics sink. -/
def opNoSinkW : Redis.operation :=
  ⟨"get", 0, none, Redis.DefaultConfig, 3⟩

/-- A redis client with metrics enabled and a sink attached. -/
def redisClientW : Redis.Client := ⟨0, Redis.DefaultConfig, some sinkW⟩

/-- A mongodb client with metrics enabled and a sink attached. -/
def mongoClientW : Mongo.Client := ⟨0, "db", Mongo.DefaultConfig, some sinkW⟩

/-- A config store holding the redis default configuration everywhere. -/
def storeW : Redis.ConfigStore := fun _ => Redis.DefaultConfig

/-! Theorems. -/

/-- Helper: `wrapError` of a non-nil error is never nil. -/
theorem Redis.wrapError_some_isSome (e : GoErr) (op : String) :
    (Redis.wrapError (some e) op).isSome = true := by
  simp only [Redis.wrapError]
  repeat' split
  all_goals simp

/-- C2: the status-classification functions of the redis and mongodb
wrappers send the nil error to the label "success" and every non-nil
error, of any form (the `redis.Nil` sentinel, typed `pkg/errors` values,
generic driver errors), to the label "error"; no other label is ever
produced. -/
theorem getStatus_success_iff_nil_error :
    Redis.getStatus none = "success" ∧ Mongo.getStatus none = "success" ∧
    (∀ e : GoErr, Redis.getStatus (some e) = "error") ∧
    (∀ e : GoErr, Mongo.getStatus (some e) = "error") ∧
    (∀ o : Option GoErr, Redis.getStatus o = "success" ∨ Redis.getStatus o = "error") ∧
    (∀ o : Option GoErr, Mongo.getStatus o = "success" ∨ Mongo.getStatus o = "error") := by
  refine ⟨rfl, rfl, fun _ => rfl, fun _ => rfl, ?_, ?_⟩ <;>
    rintro (_ | e) <;> simp [Redis.getStatus, Mongo.getStatus]

/-- C3: registering a counter or histogram on the metrics client is
idempotent in the metric name: a second `Counter`/`Histogram` call with
the same name returns the very same handle and leaves the registry
unchanged, whatever help text, label names or buckets are passed the
second time. -/
theorem metric_registration_idempotent
    (c : Metrics.Client) (name help help2 : String)
    (labels labels2 : List String) (buckets buckets2 : List Rat) :
    Metrics.Client.Counter (Metrics.Client.Counter c name help labels).2 name help2 labels2
      = Metrics.Client.Counter c name help labels ∧
    Metrics.Client.Histogram
        (Metrics.Client.Histogram c name help labels buckets).2 name help2 labels2 buckets2
      = Metrics.Client.Histogram c name help labels buckets := by
  constructor
  · unfold Metrics.Client.Counter
    cases h : c.counters.lookup name <;> simp [h, List.lookup]
  · unfold Metrics.Client.Histogram
    cases h : c.histograms.lookup name <;> simp [h, List.lookup]

/-- C5: each instrumented operation finalizes the context created at its
start by exactly one metric-recording (or disabled-skip) call: its whole
effect on the sink equals a single `end`/`recordMetrics` call on that
context, on the success path and on the early-return error path alike. -/
theorem instrumented_ops_finalize_exactly_once
    (c : Redis.Client) (key value : String) (expiration : Int) (keys : List String)
    (res : String) (err : Option GoErr) (t0 t1 : Nat)
    (mc : Mongo.Client) (coll : String) (mres : Option Nat) (err2 : Option GoErr) :
    (c.Get key (res, err) t0 t1).2 = (c.newOperation "get" t0).finish t1 err ∧
    (c.Set key value expiration err t0 t1).2 = (c.newOperation "set" t0).finish t1 err ∧
    (c.Del keys err t0 t1).2 = (c.newOperation "del" t0).finish t1 err ∧
    (mc.InsertOne coll (mres, err2) t0 t1).2 = mc.recordMetrics "insert_one" coll err2 t0 t1 ∧
    (mc.Find coll (mres, err2) t0 t1).2 = mc.recordMetrics "find" coll err2 t0 t1 := by
  refine ⟨?_, ?_, ?_, rfl, rfl⟩ <;> cases err <;> rfl

/-- C8: beginning an instrumented operation is a pure constructor: it
returns the context holding exactly the supplied name, the supplied
clock reading, and the client's own fields, and touches nothing else. -/
theorem newOperation_captures_name_and_clock
    (c : Redis.Client) (name : String) (now : Nat) :
    c.newOperation name now = ⟨name, c.client, c.metrics, c.config, now⟩ ∧
    (c.newOperation name now).name = name ∧
    (c.newOperation name now).startTime = now :=
  ⟨rfl, rfl, rfl⟩

/-- C1: finishing an instrumented operation with metrics disabled or no
sink attached performs no sink calls at all; otherwise it performs
exactly one duration observation on the operation-duration histogram and
exactly one increment on the operations-total counter — for both the
redis `operation.end` finisher and the mongodb `recordMetrics` finisher. -/
theorem finish_records_exactly_one_observation_and_increment
    (op : Redis.operation) (now : Nat) (err : Option GoErr)
    (mc : Mongo.Client) (oname coll : String) (start tnow : Nat) (err2 : Option GoErr) :
    (¬(op.config.EnableMetrics = true ∧ op.metrics ≠ none) →
      op.finish now err = (op.metrics, [])) ∧
    (op.config.EnableMetrics = true → ∀ st, op.metrics = some st →
      (∃ hv cv st2, op.finish now err =
        (some st2,
          [Metrics.Event.getHistogram "redis_operation_duration_seconds"
             "Redis operation duration in seconds" ["operation", "service"]
             [0.001, 0.005, 0.01, 0.05, 0.1, 0.5, 1],
           Metrics.Event.observe hv [op.name, op.config.ServiceName]
             (durationSeconds op.startTime now),
           Metrics.Event.getCounter "redis_operations_total"
             "Total number of Redis operations" ["operation", "status", "service"],
           Metrics.Event.inc cv [op.name, Redis.getStatus err, op.config.ServiceName]])) ∧
      ((op.finish now err).2.filter Metrics.Event.isObserve).length = 1 ∧
      ((op.finish now err).2.filter Metrics.Event.isInc).length = 1) ∧
    (¬(mc.config.EnableMetrics = true ∧ mc.metrics ≠ none) →
      mc.recordMetrics oname coll err2 start tnow = (mc.metrics, [])) ∧
    (mc.config.EnableMetrics = true → ∀ st, mc.metrics = some st →
      ((mc.recordMetrics oname coll err2 start tnow).2.filter Metrics.Event.isObserve).length = 1 ∧
      ((mc.recordMetrics oname coll err2 start tnow).2.filter Metrics.Event.isInc).length = 1) := by
  refine ⟨?_, ?_, ?_, ?_⟩
  · intro hNot
    cases hE : op.config.EnableMetrics <;> cases hM : op.metrics with
    | _ => first
      | (simp [Redis.operation.finish, hE, hM]; done)
      | exact absurd ⟨hE, by simp [hM]⟩ hNot
  · intro hE st hM
    refine ⟨?_, ?_, ?_⟩
    · simp only [Redis.operation.finish, hE, hM]
      exact ⟨_, _, _, rfl⟩
    · simp [Redis.operation.finish, hE, hM, Metrics.Event.isObserve, Metrics.Event.isInc]
    · simp [Redis.operation.finish, hE, hM, Metrics.Event.isObserve, Metrics.Event.isInc]
  · intro hNot
    cases hE : mc.config.EnableMetrics <;> cases hM : mc.metrics with
    | _ => first
      | (simp [Mongo.Client.recordMetrics, hE, hM]; done)
      | exact absurd ⟨hE, by simp [hM]⟩ hNot
  · intro hE st hM
    constructor <;>
      simp [Mongo.Client.recordMetrics, hE, hM, Metrics.Event.isObserve, Metrics.Event.isInc]

/-- C1 witness: the property at a concrete enabled redis operation, a
concrete sink-less redis operation, and a concrete enabled mongodb
client. -/
theorem finish_records_exactly_one_observation_and_increment_witness :
    (opEnabledW.config.EnableMetrics = true ∧ opEnabledW.metrics = some sinkW ∧
      ((opEnabledW.finish 5 none).2.filter Metrics.Event.isObserve).length = 1 ∧
      ((opEnabledW.finish 5 none).2.filter Metrics.Event.isInc).length = 1) ∧
    (¬(opNoSinkW.config.EnableMetrics = true ∧ opNoSinkW.metrics ≠ none) ∧
      opNoSinkW.finish 5 none = (opNoSinkW.metrics, [])) ∧
    (mongoClientW.config.EnableMetrics = true ∧ mongoClientW.metrics = some sinkW ∧
      ((mongoClientW.recordMetrics "insert_one" "c" none 3 5).2.filter
          Metrics.Event.isObserve).length = 1 ∧
      ((mongoClientW.recordMetrics "insert_one" "c" none 3 5).2.filter
          Metrics.Event.isInc).length = 1) :=
  ⟨⟨rfl, rfl,
     ((finish_records_exactly_one_observation_and_increment opEnabledW 5 none
         mongoClientW "insert_one" "c" 3 5 none).2.1 rfl sinkW rfl).2⟩,
   ⟨by decide,
     (finish_records_exactly_one_observation_and_increment opNoSinkW 5 none
         mongoClientW "insert_one" "c" 3 5 none).1 (by decide)⟩,
   ⟨rfl, rfl,
     (finish_records_exactly_one_observation_and_increment opEnabledW 5 none
         mongoClientW "insert_one" "c" 3 5 none).2.2.2 rfl sinkW rfl⟩⟩

/-- C6: the value and error handed back to the caller are the delegated
call's own: the mongodb operations return the delegated pair unchanged,
and the redis operation returns the delegated value on success and the
delegated error in its externally-mapped (`wrapError`) form on failure,
succeeding exactly when the delegated call did. -/
theorem instrumented_ops_return_delegated_outcome
    (c : Redis.Client) (key res : String) (err : Option GoErr) (t0 t1 : Nat)
    (mc : Mongo.Client) (coll : String) (mres : Option Nat) (err2 : Option GoErr) :
    (mc.InsertOne coll (mres, err2) t0 t1).1 = (mres, err2) ∧
    (mc.Find coll (mres, err2) t0 t1).1 = (mres, err2) ∧
    (err = none → (c.Get key (res, err) t0 t1).1 = (res, none)) ∧
    (∀ e, err = some e →
      (c.Get key (res, err) t0 t1).1 = ("", Redis.wrapError (some e) "get")) ∧
    ((c.Get key (res, err) t0 t1).1.2 = none ↔ err = none) := by
  refine ⟨rfl, rfl, ?_, ?_, ?_⟩
  · rintro rfl; rfl
  · rintro e rfl; rfl
  · cases err with
    | none => simp [Redis.Client.Get]
    | some e =>
      have h := Redis.wrapError_some_isSome e "get"
      simp only [Redis.Client.Get]
      simp only [Option.isSome_iff_ne_none] at h
      simp [h]

/-- C6 witness: the property at a concrete client, once with a nil
delegated error and once with the `redis.Nil` delegated error. -/
theorem instrumented_ops_return_delegated_outcome_witness :
    ((none : Option GoErr) = none ∧
      (redisClientW.Get "k" ("v", none) 3 5).1 = ("v", none)) ∧
    ((some GoErr.redisNil : Option GoErr) = some GoErr.redisNil ∧
      (redisClientW.Get "k" ("", some GoErr.redisNil) 3 5).1 =
        ("", Redis.wrapError (some GoErr.redisNil) "get")) :=
  ⟨⟨rfl,
     (instrumented_ops_return_delegated_outcome redisClientW "k" "v" none 3 5
         mongoClientW "c" none none).2.2.1 rfl⟩,
   ⟨rfl,
     (instrumented_ops_return_delegated_outcome redisClientW "k" "" (some GoErr.redisNil)
         3 5 mongoClientW "c" none none).2.2.2.1 GoErr.redisNil rfl⟩⟩

/-- C7: `wrapError` is a pure map to the fixed taxonomy: nil stays nil;
`redis.Nil` becomes the not-found error; otherwise a message containing
"connection refused" becomes the connection-refused server error;
otherwise a message containing "timeout" becomes the operation-timeout
server error; every other non-nil error becomes a generic server error
carrying the original message — each tagged with the operation name as a
detail. -/
theorem wrapError_taxonomy (op : String) (e : GoErr) :
    Redis.wrapError none op = none ∧
    Redis.wrapError (some GoErr.redisNil) op =
      some ⟨Errors.CodeNotFound, "key not found", [op]⟩ ∧
    (e ≠ GoErr.redisNil →
      (strContains e.msg "connection refused" = true →
        Redis.wrapError (some e) op =
          some ⟨Errors.CodeServerError, "connection refused", [op]⟩) ∧
      (strContains e.msg "connection refused" = false →
       strContains e.msg "timeout" = true →
        Redis.wrapError (some e) op =
          some ⟨Errors.CodeServerError, "operation timeout", [op]⟩) ∧
      (strContains e.msg "connection refused" = false →
       strContains e.msg "timeout" = false →
        Redis.wrapError (some e) op =
          some ⟨Errors.CodeServerError, e.msg, [op]⟩)) := by
  refine ⟨rfl, rfl, fun hne => ⟨?_, ?_, ?_⟩⟩
  · intro h1
    simp [Redis.wrapError, hne, h1, Errors.New, Errors.Error.WithDetails]
  · intro h1 h2
    simp [Redis.wrapError, hne, h1, h2, Errors.New, Errors.Error.WithDetails]
  · intro h1 h2
    simp [Redis.wrapError, hne, h1, h2, Errors.New, Errors.Error.WithDetails]

/-- C7 witness: the taxonomy at the operation "get" with the concrete
driver error "dial timeout", which lands in the timeout branch. -/
theorem wrapError_taxonomy_witness :
    (GoErr.generic "dial timeout" ≠ GoErr.redisNil) ∧
    strContains (GoErr.generic "dial timeout").msg "connection refused" = false ∧
    strContains (GoErr.generic "dial timeout").msg "timeout" = true ∧
    Redis.wrapError (some (GoErr.generic "dial timeout")) "get" =
      some ⟨Errors.CodeServerError, "operation timeout", ["get"]⟩ :=
  ⟨by decide, by decide, by decide,
    ((wrapError_taxonomy "get" (GoErr.generic "dial timeout")).2.2
        (by decide)).2.1 (by decide) (by decide)⟩

/-- C9: `redis.NewClient` mutates the caller-supplied config in place:
with metrics enabled on the config but a nil metrics client, it sets
`EnableMetrics` to false on the shared config value (the package-level
`DefaultConfig` when the config argument was nil), the disabling is
visible through the store, and a later client built from the same config
sees metrics disabled (and triggers no further mutation). -/
theorem newClient_disables_metrics_on_shared_config
    (store : Redis.ConfigStore) (config : Option Redis.ConfigRef)
    (h : (store (config.getD Redis.defaultConfigRef)).EnableMetrics = true) :
    ∃ store2 : Redis.ConfigStore,
      Redis.NewClient store config none none =
        Except.ok (⟨0, config.getD Redis.defaultConfigRef, none⟩, store2) ∧
      store2 (config.getD Redis.defaultConfigRef) =
        { store (config.getD Redis.defaultConfigRef) with EnableMetrics := false } ∧
      (store2 (config.getD Redis.defaultConfigRef)).EnableMetrics = false ∧
      (config = none → (store2 Redis.defaultConfigRef).EnableMetrics = false) ∧
      (∀ mc2 : Option Nat,
        Redis.NewClient store2 (some (config.getD Redis.defaultConfigRef)) mc2 none =
          Except.ok (⟨0, config.getD Redis.defaultConfigRef, mc2⟩, store2)) := by
  cases config with
  | none =>
    refine ⟨fun x => if x = Redis.defaultConfigRef then
        { store Redis.defaultConfigRef with EnableMetrics := false } else store x,
      ?_, ?_, ?_, ?_, ?_⟩
    · simp only [Option.getD] at h
      simp [Redis.NewClient, h]
    · simp
    · simp
    · intro _
      simp
    · intro mc2
      simp [Redis.NewClient]
  | some cr =>
    refine ⟨fun x => if x = cr then
        { store cr with EnableMetrics := false } else store x,
      ?_, ?_, ?_, ?_, ?_⟩
    · simp only [Option.getD] at h
      simp [Redis.NewClient, h]
    · simp
    · simp
    · intro hc
      cases hc
    · intro mc2
      simp [Redis.NewClient]

/-- C9 witness: the mutation at a store holding the default config
everywhere, with a nil config argument and a nil metrics client. -/
theorem newClient_disables_metrics_on_shared_config_witness :
    (storeW ((none : Option Redis.ConfigRef).getD Redis.defaultConfigRef)).EnableMetrics
      = true ∧
    (∃ store2 : Redis.ConfigStore,
      Redis.NewClient storeW none none none =
        Except.ok (⟨0, Redis.defaultConfigRef, none⟩, store2) ∧
      store2 Redis.defaultConfigRef =
        { storeW Redis.defaultConfigRef with EnableMetrics := false } ∧
      (store2 Redis.defaultConfigRef).EnableMetrics = false ∧
      ((none : Option Redis.ConfigRef) = none →
        (store2 Redis.defaultConfigRef).EnableMetrics = false) ∧
      (∀ mc2 : Option Nat,
        Redis.NewClient store2 (some Redis.defaultConfigRef) mc2 none =
          Except.ok (⟨0, Redis.defaultConfigRef, mc2⟩, store2))) :=
  ⟨rfl, newClient_disables_metrics_on_shared_config storeW none rfl⟩

/-- C10: with the package logger uninitialized (`log = nil`), every
package-level logging function emits nothing and is total (no panic),
and `WithFields` returns a fresh usable entry rather than nil. -/
theorem logger_safe_before_init (args : List String) (fields : List (String × String)) :
    Logger.Debug none args = [] ∧ Logger.Info none args = [] ∧
    Logger.Warn none args = [] ∧ Logger.Error none args = [] ∧
    Logger.Fatal none args = [] ∧
    Logger.WithFields none fields = some (Logger.logrusNewEntry Logger.logrusNew) :=
  ⟨rfl, rfl, rfl, rfl, rfl, rfl⟩

end Calorie
